import Mathlib

/-!
Shallow embedding of `src/throttle.py` (the `throttle` rate-limiting wrapper).

The module has one factory `throttle(current_func, period=5000)` producing a
`throttled_function`.  Shared state is `exec_list = [lastExecutionTime, lock]`
(lines 19-22) and a `thread_pool` list bounded by `THREAD_POOL_SIZE = 50`
(lines 15-16).  Each invocation registers a `threaded_call` thread (lines
94-116); the thread loops acquiring the lock, checking the gate on line 64,
executing and time-stamping on lines 67-77, or releasing and sleeping on
lines 78-86.

Times are modelled as rationals.  Because every read and write of
`lastExecutionTime` happens while the single lock is held, a concurrent run
serializes into a sequence of lock-held loop iterations; an `Attempt` records
the data of one such iteration: the time captured on line 59 (`now`), the
time captured by the write on line 71 (`finish`), and the outcome of
`current_func()` were it called at this iteration (`outcome`).
-/

deriving instance DecidableEq for Except

namespace Throttle

/-- A handle to a `threading.Thread` object: its identity and the value its
`is_alive()` method currently reports. -/
structure PyThread where
  tid : ℕ
  alive : Bool
  deriving DecidableEq

/-- `THREAD_POOL_SIZE = 50` (line 15). -/
def THREAD_POOL_SIZE : ℕ := 50

/-- Lines 98-100: collect the threads whose `is_alive()` is false, then remove
each of them from `thread_pool` with `list.remove` (first matching handle). -/
def cleanPool (pool : List PyThread) : List PyThread :=
  (pool.filter fun t => !t.alive).foldl (fun p t => p.erase t) pool

/-- The message of the exception raised on line 105. -/
def poolFullMsg : String := "Thread pool is full. No more threads can be added."

/-- Outcome of one call of `throttled_function`: the thread pool after the
call, the value returned (or exception raised) to the caller, and whether
`t.start()` on line 116 ran. -/
structure CallResult where
  pool : List PyThread
  result : Except String Unit
  started : Bool
  deriving DecidableEq

/-- Lines 94-116: acquire the lock, clean the pool, raise if the cleaned pool
has `THREAD_POOL_SIZE` entries, otherwise build the thread, append it, release
the lock and start the thread.  `throttled_function` has no `return`
statement, so a successful call returns Python's `None`, modelled as
`Except.ok ()`. -/
def throttled_function_step (pool : List PyThread) (t : PyThread) : CallResult :=
  let pruned := cleanPool pool
  if pruned.length = THREAD_POOL_SIZE then
    { pool := pruned, result := .error poolFullMsg, started := false }
  else
    { pool := pruned ++ [t], result := .ok (), started := true }

/-- Lines 24-116: the synchronous body of `throttled_function` never calls
`current_func`; the action is only captured by the closure `threaded_call`
handed to the thread.  The parameter `action` is therefore unused by the
synchronous step. -/
def throttled_function_sync (action : Unit → Except String ℚ)
    (pool : List PyThread) (t : PyThread) : CallResult :=
  throttled_function_step pool t

/-- The primitive effects of one `throttled_function` call, in program order. -/
inductive AdmissionEvent
  | acquire | clean | checkCapacity | createThread | register | release
  | raisePoolFull | start
  deriving DecidableEq

/-- Event trace of one `throttled_function` call (lines 94-116).  On the full
path the exception on line 105 is raised first and the `finally` on line 113
releases the lock before the exception propagates; line 108 (`threading.Thread`)
and line 116 (`t.start()`) never run.  On the admitted path the thread is
created and registered inside the critical section and started only after the
release on line 113. -/
def admissionEvents (pool : List PyThread) : List AdmissionEvent :=
  if (cleanPool pool).length = THREAD_POOL_SIZE then
    [.acquire, .clean, .checkCapacity, .raisePoolFull, .release]
  else
    [.acquire, .clean, .checkCapacity, .createThread, .register, .release, .start]

/-- Evolution of one limiter's `thread_pool`: either `throttled_function` is
called (with some fresh thread handle), or a running thread finishes and its
`is_alive()` flips to false. -/
inductive PoolEvolve : List PyThread → List PyThread → Prop
  | call (pool : List PyThread) (t : PyThread) :
      PoolEvolve pool (throttled_function_step pool t).pool
  | die (p₁ p₂ : List PyThread) (t : PyThread) :
      PoolEvolve (p₁ ++ t :: p₂) (p₁ ++ { t with alive := false } :: p₂)

/-- Line 60: `period_in_seconds = period / 1000.0`, rational division. -/
def period_in_seconds (period : ℚ) : ℚ := period / 1000

/-- Line 64: `last_execution_time is None or now - last_execution_time >=
period_in_seconds`. -/
def gatePass (ps : ℚ) (last : Option ℚ) (now : ℚ) : Bool :=
  match last with
  | none => true
  | some t => decide (ps ≤ now - t)

/-- Python's `time.sleep`: raises `ValueError` for a negative argument and is
a no-op (modulo the delay) otherwise. -/
def pythonSleep (secs : ℚ) : Except String Unit :=
  if secs < 0 then .error "sleep length must be non-negative" else .ok ()

/-- Line 86: the computed difference is passed to `time.sleep` unmodified. -/
def sleep_call (d : ℚ) : Except String Unit := pythonSleep d

/-- Modelled from the spec: "the sleep call must be treated as a no-op
(non-negative clamp), not an error" — the argument is clamped to zero before
the sleep.  This definition follows the spec's words, for comparison with
`sleep_call`, which follows the source. -/
def sleep_call_clamped (d : ℚ) : Except String Unit := pythonSleep (max d 0)

/-- The data of one lock-held iteration of the `while True` loop of
`threaded_call` (lines 45-86): `now` is `time.time()` captured on line 59,
`finish` is `time.time()` captured by the write on line 71, and `outcome` is
what `current_func()` would do if called during this iteration (`.ok v` for a
normal return, `.error e` for a raised exception). -/
structure Attempt where
  now : ℚ
  finish : ℚ
  outcome : Except String ℚ
  deriving DecidableEq

/-- Result of one lock-held loop iteration: the value of `exec_list[0]` after
the iteration, whether the gate passed so `current_func` ran, the value of
`return_value`, and the exception (if any) escaping the loop from this
iteration. -/
structure IterResult where
  last : Option ℚ
  executed : Bool
  returnValue : Option ℚ
  propagated : Option String
  deriving DecidableEq

/-- One lock-held iteration of `threaded_call` (lines 45-86).  If the gate on
line 64 passes, lines 67-77 run `current_func()` under `try`/`finally`: the
`finally` writes `exec_list[0] = time.time()`, releases the lock and executes
`break`; in Python a `break` inside a `finally` discards the in-flight
exception, so the timestamp is written and nothing propagates whether or not
`current_func` raises.  If the gate fails, the lock is released (line 80) and
the task sleeps for `period_in_seconds - (now - last_execution_time)`
(line 86); the gate fails only when `last_execution_time` is set. -/
def loopIter (period : ℚ) (last : Option ℚ) (a : Attempt) : IterResult :=
  let ps := period_in_seconds period
  if gatePass ps last a.now then
    match a.outcome with
    | .ok v => { last := some a.finish, executed := true,
                 returnValue := some v, propagated := none }
    | .error _ => { last := some a.finish, executed := true,
                    returnValue := none, propagated := none }
  else
    { last := last, executed := false, returnValue := none,
      propagated :=
        match last with
        | none => none
        | some t =>
          match pythonSleep (ps - (a.now - t)) with
          | .ok _ => none
          | .error e => some e }

/-- The primitive effects of one lock-held loop iteration, in program order. -/
inductive LoopEvent
  | acquireLock | readVars | runAction | writeTimestamp | releaseLock
  | sleepCall | breakLoop
  deriving DecidableEq

/-- Event trace of one lock-held iteration of `threaded_call`: acquire
(line 51), read `last_execution_time` and `now` (lines 55-60), then either
lines 67-77 (run, write timestamp, release, break) or lines 80-86 (release,
then sleep). -/
def threaded_call_events (period : ℚ) (last : Option ℚ) (a : Attempt) :
    List LoopEvent :=
  if gatePass (period_in_seconds period) last a.now then
    [.acquireLock, .readVars, .runAction, .writeTimestamp, .releaseLock, .breakLoop]
  else
    [.acquireLock, .readVars, .releaseLock, .sleepCall]

/-- `chrono b l` says the iterations in `l` are listed in the real-time order
in which the lock serialized them, starting no earlier than `b`: each capture
of `now` (line 59) precedes the matching write time (line 71), which precedes
the next iteration's `now`. -/
def chrono (b : ℚ) : List Attempt → Bool
  | [] => true
  | a :: rest => decide (b ≤ a.now) && decide (a.now ≤ a.finish) && chrono a.finish rest

/-- The iterations at which the gate passed and `current_func` ran, folding
`loopIter` over a serialized iteration sequence. -/
def execAttempts (period : ℚ) : Option ℚ → List Attempt → List Attempt
  | _, [] => []
  | last, a :: rest =>
    let r := loopIter period last a
    if r.executed then a :: execAttempts period r.last rest
    else execAttempts period r.last rest

/-- The successive values of `exec_list[0]` after each serialized iteration. -/
def lastTrace (period : ℚ) : Option ℚ → List Attempt → List (Option ℚ)
  | _, [] => []
  | last, a :: rest =>
    let r := loopIter period last a
    r.last :: lastTrace period r.last rest

/-- `lastMono x y` : if the timestamp is set in `x`, it is still set in `y`
and has not decreased. -/
def lastMono (x y : Option ℚ) : Prop :=
  ∀ t, x = some t → ∃ u, y = some u ∧ t ≤ u

/-- Along a serialized iteration sequence, every change of `exec_list[0]` is
made by an iteration that executed `current_func`, and writes `some finish`. -/
def WritesOnlyAtExecutions (period : ℚ) : Option ℚ → List Attempt → Prop
  | _, [] => True
  | last, a :: rest =>
    ((loopIter period last a).last ≠ last →
      (loopIter period last a).executed = true ∧
      (loopIter period last a).last = some a.finish) ∧
    WritesOnlyAtExecutions period (loopIter period last a).last rest

/-- Line 4: `def throttle(current_func, period=5000)` — the `period`
parameter of the factory, with its default value when the caller omits it. -/
def throttle_period_arg : Option ℚ → ℚ
  | none => 5000
  | some p => p

/-! Helper lemmas about the loop iteration. -/

/-- The gate with `last_execution_time` unset always passes (line 64, first
disjunct). -/
theorem gatePass_none (ps now : ℚ) : gatePass ps none now = true := rfl

/-- The gate with the timestamp set compares elapsed time with the period
(line 64, second disjunct). -/
theorem gatePass_some (ps t now : ℚ) :
    gatePass ps (some t) now = true ↔ ps ≤ now - t := by
  simp [gatePass]

/-- `current_func` runs in an iteration exactly when the gate passes. -/
theorem loopIter_executed (period : ℚ) (last : Option ℚ) (a : Attempt) :
    (loopIter period last a).executed =
      gatePass (period_in_seconds period) last a.now := by
  unfold loopIter
  cases hg : gatePass (period_in_seconds period) last a.now <;>
    simp [hg] <;> cases a.outcome <;> rfl

/-- The timestamp is overwritten with `finish` when the gate passes and kept
otherwise. -/
theorem loopIter_last (period : ℚ) (last : Option ℚ) (a : Attempt) :
    (loopIter period last a).last =
      if gatePass (period_in_seconds period) last a.now then some a.finish
      else last := by
  unfold loopIter
  cases hg : gatePass (period_in_seconds period) last a.now <;>
    simp [hg] <;> cases a.outcome <;> rfl

/-- A failed gate means the sleep argument on line 86 is strictly positive,
so `time.sleep` succeeds: `now` and `last_execution_time` are the very values
the gate compared, hence `now - t < ps`. -/
theorem gated_sleep_ok (ps t now : ℚ) (h : gatePass ps (some t) now = false) :
    0 < ps - (now - t) ∧ pythonSleep (ps - (now - t)) = .ok () := by
  have h' : ¬ ps ≤ now - t := by
    intro hle
    rw [(gatePass_some ps t now).mpr hle] at h
    cases h
  have hpos : 0 < ps - (now - t) := by linarith
  refine ⟨hpos, ?_⟩
  unfold pythonSleep
  rw [if_neg (by linarith)]

/-- No iteration lets an exception escape the task: when the gate passes, the
`break` inside the `finally` (line 77) discards any exception of
`current_func`; when it fails, the sleep argument is strictly positive. -/
theorem loopIter_propagated (period : ℚ) (last : Option ℚ) (a : Attempt) :
    (loopIter period last a).propagated = none := by
  unfold loopIter
  cases hg : gatePass (period_in_seconds period) last a.now with
  | true => cases a.outcome <;> simp [hg]
  | false =>
    cases last with
    | none => simp [hg]
    | some t =>
      obtain ⟨-, hok⟩ := gated_sleep_ok (period_in_seconds period) t a.now hg
      simp [hg, hok]

/-- Unfolding `execAttempts` on a cons cell through `loopIter`. -/
theorem execAttempts_cons (period : ℚ) (last : Option ℚ) (a : Attempt)
    (rest : List Attempt) :
    execAttempts period last (a :: rest) =
      if gatePass (period_in_seconds period) last a.now then
        a :: execAttempts period (some a.finish) rest
      else execAttempts period last rest := by
  cases hg : gatePass (period_in_seconds period) last a.now <;>
    simp [execAttempts, loopIter_executed, loopIter_last, hg]

/-- Unfolding `lastTrace` on a cons cell through `loopIter`. -/
theorem lastTrace_cons (period : ℚ) (last : Option ℚ) (a : Attempt)
    (rest : List Attempt) :
    lastTrace period last (a :: rest) =
      (loopIter period last a).last ::
        lastTrace period (loopIter period last a).last rest := rfl

/-- Unfolding `chrono` on a cons cell. -/
theorem chrono_cons {b : ℚ} {a : Attempt} {rest : List Attempt} :
    chrono b (a :: rest) = true ↔
      b ≤ a.now ∧ a.now ≤ a.finish ∧ chrono a.finish rest = true := by
  simp [chrono, and_assoc]

/-- Core induction: along any serialized iteration sequence, the executing
iterations form a chain separated by the period, and if the incoming
timestamp is set, the first executing iteration starts at least one period
after it. -/
theorem execAttempts_chain (period : ℚ) (l : List Attempt) :
    ∀ (b : ℚ) (last : Option ℚ),
      chrono b l = true → (∀ t, last = some t → t ≤ b) →
      List.Chain'
        (fun x y => x.now + period_in_seconds period ≤ y.now ∧
                    x.finish + period_in_seconds period ≤ y.now)
        (execAttempts period last l) ∧
      (∀ y, (execAttempts period last l).head? = some y →
        ∀ t, last = some t → t + period_in_seconds period ≤ y.now) := by
  induction l with
  | nil =>
    intro b last _ _
    exact ⟨by simp [execAttempts], by intro y hy; simp [execAttempts] at hy⟩
  | cons a rest ih =>
    intro b last hc hinv
    rw [chrono_cons] at hc
    obtain ⟨hba, haf, hcr⟩ := hc
    rw [execAttempts_cons]
    cases hg : gatePass (period_in_seconds period) last a.now with
    | false =>
      simp only [Bool.false_eq_true, if_false]
      have hinv' : ∀ t, last = some t → t ≤ a.finish := fun t ht =>
        le_trans (le_trans (hinv t ht) hba) haf
      exact ih a.finish last hcr hinv'
    | true =>
      simp only [if_true]
      obtain ⟨ihChain, ihHead⟩ := ih a.finish (some a.finish) hcr
        (fun t ht => by injection ht with h; rw [h])
      constructor
      · rw [List.chain'_cons']
        refine ⟨?_, ihChain⟩
        intro y hy
        have h2 : a.finish + period_in_seconds period ≤ y.now :=
          ihHead y hy a.finish rfl
        exact ⟨by linarith, h2⟩
      · intro y hy t ht
        simp only [List.head?_cons, Option.some.injEq] at hy
        subst hy
        subst ht
        have := (gatePass_some (period_in_seconds period) t a.now).mp hg
        linarith

/-! Claim theorems. -/

/-- Claim C1 (at-most-one-per-period): for every serialized sequence of
lock-held iterations of one throttled function with period > 0 (in
milliseconds), no two iterations that execute `current_func` begin less than
`period_in_seconds period` apart; the separation holds both between the
gate-check times (`now`, line 59, the instant just before the action begins)
and from the previous write time (`finish`, line 71) to the next check. -/
theorem at_most_one_per_period (period : ℚ) (hp : 0 < period) (b : ℚ)
    (l : List Attempt) (hc : chrono b l = true) :
    (execAttempts period none l).Pairwise
      (fun x y => x.now + period_in_seconds period ≤ y.now ∧
                  x.finish + period_in_seconds period ≤ y.now) := by
  have hps : 0 < period_in_seconds period := by
    unfold period_in_seconds
    positivity
  have hchain := (execAttempts_chain period l b none hc (fun t ht => nomatch ht)).1
  haveI : IsTrans Attempt
      (fun x y => x.now + period_in_seconds period ≤ y.now ∧
                  x.finish + period_in_seconds period ≤ y.now) := by
    constructor
    intro x y z hxy hyz
    obtain ⟨h1, h2⟩ := hxy
    obtain ⟨h3, h4⟩ := hyz
    exact ⟨by linarith, by linarith⟩
  exact List.chain'_iff_pairwise.mp hchain

/-- Witness for C1 at period 2000 ms and three serialized iterations: the
first and third execute, the second is gated out. -/
theorem at_most_one_per_period_witness :
    (execAttempts 2000 none
        [⟨0, 1, .ok 0⟩, ⟨2, 2, .ok 0⟩, ⟨3, 4, .ok 0⟩]).Pairwise
      (fun x y => x.now + period_in_seconds 2000 ≤ y.now ∧
                  x.finish + period_in_seconds 2000 ≤ y.now) :=
  at_most_one_per_period 2000 (by norm_num) 0
    [⟨0, 1, .ok 0⟩, ⟨2, 2, .ok 0⟩, ⟨3, 4, .ok 0⟩] (by decide)

/-- Claim C2 (failure isolation): when an iteration whose gate passes runs a
raising `current_func`, the `finally` on lines 69-77 still writes
`exec_list[0] = time.time()` (the current time `finish`), `return_value`
stays `None`, the exception is not propagated out of the task (the `break`
inside the `finally` discards it), and the next gate opens exactly when a
full `period_in_seconds period` has elapsed since the write — not
immediately. -/
theorem failure_isolation (period : ℚ) (last : Option ℚ) (a : Attempt)
    (e : String)
    (hgate : gatePass (period_in_seconds period) last a.now = true)
    (herr : a.outcome = .error e) :
    (loopIter period last a).last = some a.finish ∧
    (loopIter period last a).returnValue = none ∧
    (loopIter period last a).propagated = none ∧
    (∀ now2 : ℚ,
      gatePass (period_in_seconds period) (loopIter period last a).last now2 =
        true ↔ period_in_seconds period ≤ now2 - a.finish) := by
  have hl : (loopIter period last a).last = some a.finish := by
    rw [loopIter_last, if_pos hgate]
  have hr : (loopIter period last a).returnValue = none := by
    unfold loopIter
    rw [herr]
    simp [hgate]
  refine ⟨hl, hr, loopIter_propagated period last a, ?_⟩
  intro now2
  rw [hl]
  exact gatePass_some (period_in_seconds period) a.finish now2

/-- Witness for C2: a fresh limiter, one iteration at time 0 whose action
raises; the timestamp is still written (at time 1) and nothing escapes. -/
theorem failure_isolation_witness :
    (loopIter 500 none ⟨0, 1, .error "boom"⟩).last = some 1 ∧
    (loopIter 500 none ⟨0, 1, .error "boom"⟩).returnValue = none ∧
    (loopIter 500 none ⟨0, 1, .error "boom"⟩).propagated = none ∧
    (∀ now2 : ℚ,
      gatePass (period_in_seconds 500) (loopIter 500 none ⟨0, 1, .error "boom"⟩).last
        now2 = true ↔ period_in_seconds 500 ≤ now2 - 1) :=
  failure_isolation 500 none ⟨0, 1, .error "boom"⟩ "boom" rfl rfl

/-- Counterexample to claim C3 as stated: the claim says `lastExecutionTime`
is only ever written immediately after a successful execution of the wrapped
action, but the `finally` on line 71 also writes it when `current_func`
raises.  Concretely, a fresh limiter running one iteration whose action
raises performs the write `None ↦ some 1`. -/
theorem write_not_only_after_success :
    Attempt.outcome ⟨0, 1, .error "boom"⟩ = .error "boom" ∧
    (loopIter 500 none ⟨0, 1, .error "boom"⟩).executed = true ∧
    (loopIter 500 none ⟨0, 1, .error "boom"⟩).last = some 1 ∧
    (none : Option ℚ) ≠ some (1 : ℚ) := by decide

/-- Claim C3 (amended): `lastExecutionTime` is monotonically non-decreasing
once set, and is only ever written immediately after an execution attempt of
the wrapped action — successful or raising — while the guard is held: every
change of `exec_list[0]` along a serialized iteration sequence is performed
by an iteration that ran `current_func`, and writes that iteration's
`time.time()`. -/
theorem timestamp_monotone (period : ℚ) (l : List Attempt) :
    ∀ (b : ℚ) (last : Option ℚ),
      chrono b l = true → (∀ t, last = some t → t ≤ b) →
      List.Chain' lastMono (last :: lastTrace period last l) ∧
      WritesOnlyAtExecutions period last l := by
  induction l with
  | nil =>
    intro b last _ _
    exact ⟨List.chain'_singleton last, trivial⟩
  | cons a rest ih =>
    intro b last hc hinv
    rw [chrono_cons] at hc
    obtain ⟨hba, haf, hcr⟩ := hc
    rw [lastTrace_cons]
    cases hg : gatePass (period_in_seconds period) last a.now with
    | true =>
      have hl : (loopIter period last a).last = some a.finish := by
        rw [loopIter_last, if_pos hg]
      have hinv' : ∀ t, (some a.finish : Option ℚ) = some t → t ≤ a.finish :=
        fun t ht => by injection ht with h; rw [h]
      obtain ⟨ihChain, ihW⟩ := ih a.finish (some a.finish) hcr hinv'
      rw [hl]
      constructor
      · rw [List.chain'_cons]
        refine ⟨?_, ihChain⟩
        intro t ht
        exact ⟨a.finish, rfl, le_trans (le_trans (hinv t ht) hba) haf⟩
      · refine ⟨fun _ => ⟨?_, hl⟩, ?_⟩
        · rw [loopIter_executed, hg]
        · rw [hl]
          exact ihW
    | false =>
      have hl : (loopIter period last a).last = last := by
        rw [loopIter_last, if_neg (by rw [hg]; intro h; cases h)]
      have hinv' : ∀ t, last = some t → t ≤ a.finish := fun t ht =>
        le_trans (le_trans (hinv t ht) hba) haf
      obtain ⟨ihChain, ihW⟩ := ih a.finish last hcr hinv'
      rw [hl]
      constructor
      · rw [List.chain'_cons]
        exact ⟨fun t ht => ⟨t, ht, le_refl t⟩, ihChain⟩
      · refine ⟨fun hne => absurd hl hne, ?_⟩
        rw [hl]
        exact ihW

/-- Witness for the amended C3: a fresh limiter and one executing iteration. -/
theorem timestamp_monotone_witness :
    List.Chain' lastMono (none :: lastTrace 500 none [⟨0, 1, .ok 7⟩]) ∧
    WritesOnlyAtExecutions 500 none [⟨0, 1, .ok 7⟩] :=
  timestamp_monotone 500 [⟨0, 1, .ok 7⟩] 0 none (by decide) (fun t ht => nomatch ht)

/-! Helper lemmas about the thread pool. -/

/-- Removing the elements of `s` one by one with `list.remove` is `List.diff`. -/
theorem foldl_erase_eq_diff (s p : List PyThread) :
    s.foldl (fun q t => q.erase t) p = p.diff s := by
  induction s generalizing p with
  | nil => rfl
  | cons a s ih => rw [List.foldl_cons, ih, List.diff_cons]

/-- The pruning loop of lines 98-100 computes the difference of the pool and
its dead members. -/
theorem cleanPool_eq_diff (pool : List PyThread) :
    cleanPool pool = pool.diff (pool.filter fun t => !t.alive) :=
  foldl_erase_eq_diff _ _

/-- Pruning never grows the pool. -/
theorem cleanPool_length_le (pool : List PyThread) :
    (cleanPool pool).length ≤ pool.length := by
  rw [cleanPool_eq_diff]
  exact (List.diff_sublist _ _).length_le

/-- When the pool holds pairwise distinct handles — as it does in the source,
where every entry is a freshly constructed `threading.Thread` — pruning
removes every dead handle: all survivors report alive. -/
theorem cleanPool_alive (pool : List PyThread) (hnd : pool.Nodup) :
    ∀ x ∈ cleanPool pool, x.alive = true := by
  intro x hx
  rw [cleanPool_eq_diff, hnd.mem_diff_iff] at hx
  obtain ⟨hxp, hxf⟩ := hx
  by_contra hal
  exact hxf (List.mem_filter.mpr ⟨hxp, by simp [hal]⟩)

/-- Claim C4 (capacity enforcement): a call made while the pruned pool holds
`THREAD_POOL_SIZE` entries raises the pool-full exception synchronously,
appends nothing, starts nothing — the pool is left at its pruned value — and
the call's event trace raises and releases without creating, registering or
starting a thread. -/
theorem capacity_enforcement (pool : List PyThread) (t : PyThread)
    (hfull : (cleanPool pool).length = THREAD_POOL_SIZE) :
    throttled_function_step pool t =
      { pool := cleanPool pool, result := .error poolFullMsg, started := false } ∧
    admissionEvents pool =
      [.acquire, .clean, .checkCapacity, .raisePoolFull, .release] := by
  constructor
  · unfold throttled_function_step
    rw [if_pos hfull]
  · unfold admissionEvents
    rw [if_pos hfull]

/-- Witness for C4: a pool of 50 distinct live threads rejects the 51st call. -/
theorem capacity_enforcement_witness :
    throttled_function_step ((List.range 50).map fun i => ⟨i, true⟩) ⟨50, false⟩ =
      { pool := cleanPool ((List.range 50).map fun i => ⟨i, true⟩),
        result := .error poolFullMsg, started := false } ∧
    admissionEvents ((List.range 50).map fun i => ⟨i, true⟩) =
      [.acquire, .clean, .checkCapacity, .raisePoolFull, .release] :=
  capacity_enforcement ((List.range 50).map fun i => ⟨i, true⟩) ⟨50, false⟩
    (by decide)

/-- A single evolution step keeps the pool within capacity: a death keeps the
length, and an admitted call appends one element to a pruned pool of size
different from (hence, within capacity, strictly below) `THREAD_POOL_SIZE`. -/
theorem poolEvolve_length (p q : List PyThread) (hstep : PoolEvolve p q)
    (hp : p.length ≤ THREAD_POOL_SIZE) : q.length ≤ THREAD_POOL_SIZE := by
  cases hstep with
  | call tnew =>
    unfold throttled_function_step
    by_cases hfull : (cleanPool p).length = THREAD_POOL_SIZE
    · simpa [hfull] using le_of_eq hfull
    · have hle : (cleanPool p).length ≤ p.length := cleanPool_length_le p
      simp only [hfull, if_false]
      simp only [List.length_append, List.length_cons, List.length_nil]
      omega
  | die p₁ p₂ td =>
    simpa using hp

/-- Claim C5 (pool-size invariant): starting from the empty pool of line 16,
along any interleaving of invoker calls and thread deaths the pool size never
exceeds `THREAD_POOL_SIZE`; moreover dead tasks are removed before the
capacity check — the survivors of the prune are all alive (for pools of
distinct handles), and a call succeeds exactly when the pruned size differs
from the capacity. -/
theorem pool_size_invariant (pool q : List PyThread) (t : PyThread)
    (h : Relation.ReflTransGen PoolEvolve [] pool) (hq : q.Nodup) :
    pool.length ≤ THREAD_POOL_SIZE ∧
    (∀ x ∈ cleanPool q, x.alive = true) ∧
    ((throttled_function_step q t).result = .ok () ↔
      (cleanPool q).length ≠ THREAD_POOL_SIZE) := by
  refine ⟨?_, cleanPool_alive q hq, ?_⟩
  · induction h with
    | refl => simp
    | tail _ hstep ih => exact poolEvolve_length _ _ hstep ih
  · unfold throttled_function_step
    by_cases hfull : (cleanPool q).length = THREAD_POOL_SIZE <;> simp [hfull]

/-- Witness for C5: the initial pool, and a two-element pool with one dead
thread whose prune keeps only the live one. -/
theorem pool_size_invariant_witness :
    ([] : List PyThread).length ≤ THREAD_POOL_SIZE ∧
    (∀ x ∈ cleanPool [⟨0, true⟩, ⟨1, false⟩], x.alive = true) ∧
    ((throttled_function_step [⟨0, true⟩, ⟨1, false⟩] ⟨2, true⟩).result = .ok () ↔
      (cleanPool [⟨0, true⟩, ⟨1, false⟩]).length ≠ THREAD_POOL_SIZE) :=
  pool_size_invariant [] [⟨0, true⟩, ⟨1, false⟩] ⟨2, true⟩
    Relation.ReflTransGen.refl (by decide)

/-- Claim C7 (fire-and-forget invoker): the synchronous body of
`throttled_function` does not depend on the wrapped action at all — in
particular it never executes it — and the value it returns to the caller is
either Python's `None` (no `return` statement) or the pool-full exception;
`current_func`'s return value and errors never appear in it. -/
theorem fire_and_forget (action action2 : Unit → Except String ℚ)
    (pool : List PyThread) (t : PyThread) :
    throttled_function_sync action pool t = throttled_function_sync action2 pool t ∧
    ((throttled_function_sync action pool t).result = .ok () ∨
     (throttled_function_sync action pool t).result = .error poolFullMsg) := by
  refine ⟨rfl, ?_⟩
  unfold throttled_function_sync throttled_function_step
  by_cases hfull : (cleanPool pool).length = THREAD_POOL_SIZE <;> simp [hfull]

/-- Claim C9 (two-phase admission): on every admitted call the event trace is
acquire, clean, check, create, register, release, start — the thread is
created and registered strictly inside the critical section, the size check
also happens there, and the start is strictly after the release, never while
the guard is held. -/
theorem two_phase_admission (pool : List PyThread) (t : PyThread)
    (hadm : (throttled_function_step pool t).started = true) :
    admissionEvents pool =
      [.acquire, .clean, .checkCapacity, .createThread, .register, .release, .start] ∧
    (admissionEvents pool).indexOf .acquire <
      (admissionEvents pool).indexOf .checkCapacity ∧
    (admissionEvents pool).indexOf .checkCapacity <
      (admissionEvents pool).indexOf .register ∧
    (admissionEvents pool).indexOf .register <
      (admissionEvents pool).indexOf .release ∧
    (admissionEvents pool).indexOf .release <
      (admissionEvents pool).indexOf .start := by
  have hfull : ¬ (cleanPool pool).length = THREAD_POOL_SIZE := by
    intro hf
    unfold throttled_function_step at hadm
    rw [if_pos hf] at hadm
    cases hadm
  unfold admissionEvents
  rw [if_neg hfull]
  exact ⟨rfl, by decide, by decide, by decide, by decide⟩

/-- Witness for C9: a call on the empty pool is admitted. -/
theorem two_phase_admission_witness :
    admissionEvents [] =
      [.acquire, .clean, .checkCapacity, .createThread, .register, .release, .start] ∧
    (admissionEvents []).indexOf .acquire <
      (admissionEvents []).indexOf .checkCapacity ∧
    (admissionEvents []).indexOf .checkCapacity <
      (admissionEvents []).indexOf .register ∧
    (admissionEvents []).indexOf .register <
      (admissionEvents []).indexOf .release ∧
    (admissionEvents []).indexOf .release <
      (admissionEvents []).indexOf .start :=
  two_phase_admission [] ⟨0, false⟩ (by decide)

/-- Counterexample to claim C6 as stated: the claim says a zero-or-negative
computed quantity is passed to the sleep as a no-op via a non-negative clamp,
but line 86 passes the difference to `time.sleep` unmodified, and Python's
`time.sleep` raises `ValueError` on a negative argument; the clamped
treatment that the spec describes differs from the source's at `-1`. -/
theorem sleep_not_clamped :
    sleep_call (-1) = .error "sleep length must be non-negative" ∧
    sleep_call_clamped (-1) = .ok () ∧
    sleep_call (-1) ≠ sleep_call_clamped (-1) := by decide

/-- Claim C6 (amended): when the gate fails the task releases the guard
before sleeping and sleeps for exactly `period_in_seconds - (now - last)`;
because `now` and `last_execution_time` are the very values read under the
guard for the gate check, this quantity is always strictly positive, so the
unclamped sleep call never receives a zero or negative argument and never
raises. -/
theorem gate_fail_sleep (period : ℚ) (t : ℚ) (a : Attempt)
    (hg : gatePass (period_in_seconds period) (some t) a.now = false) :
    0 < period_in_seconds period - (a.now - t) ∧
    sleep_call (period_in_seconds period - (a.now - t)) = .ok () ∧
    (loopIter period (some t) a).propagated = none ∧
    (threaded_call_events period (some t) a).indexOf .releaseLock <
      (threaded_call_events period (some t) a).indexOf .sleepCall := by
  obtain ⟨hpos, hok⟩ := gated_sleep_ok (period_in_seconds period) t a.now hg
  refine ⟨hpos, hok, loopIter_propagated period (some t) a, ?_⟩
  unfold threaded_call_events
  rw [if_neg (by rw [hg]; intro h; cases h)]
  decide

/-- Witness for the amended C6: period 1000 ms, last execution at time 0,
gate re-checked at time 1/2. -/
theorem gate_fail_sleep_witness :
    0 < period_in_seconds 1000 - ((1 : ℚ) / 2 - 0) ∧
    sleep_call (period_in_seconds 1000 - ((1 : ℚ) / 2 - 0)) = .ok () ∧
    (loopIter 1000 (some 0) ⟨1 / 2, 1 / 2, .ok 0⟩).propagated = none ∧
    (threaded_call_events 1000 (some 0) ⟨1 / 2, 1 / 2, .ok 0⟩).indexOf .releaseLock <
      (threaded_call_events 1000 (some 0) ⟨1 / 2, 1 / 2, .ok 0⟩).indexOf .sleepCall :=
  gate_fail_sleep 1000 0 ⟨1 / 2, 1 / 2, .ok 0⟩
    (by rw [← Bool.not_eq_true, gatePass_some]; norm_num [period_in_seconds])

/-- Claim C8 (period conversion): the millisecond period is converted to
seconds by exact division by 1000 — e.g. 500 ms becomes the rational 1/2 —
and the gate evaluated inside the loop iteration compares the elapsed time
`now - last` against exactly this converted value. -/
theorem period_conversion (period : ℚ) (last : Option ℚ) (a : Attempt) :
    period_in_seconds period = period / 1000 ∧
    (loopIter period last a).executed = gatePass (period / 1000) last a.now ∧
    (∀ t now2 : ℚ,
      gatePass (period / 1000) (some t) now2 = true ↔ period / 1000 ≤ now2 - t) ∧
    period_in_seconds 500 = 1 / 2 := by
  refine ⟨rfl, loopIter_executed period last a, ?_, ?_⟩
  · intro t now2
    exact gatePass_some (period / 1000) t now2
  · norm_num [period_in_seconds]

/-- Claim C10 (implicit default period): omitting the `period` argument of
`throttle` gives a period of 5000 milliseconds, i.e. 5 seconds after the
conversion of line 60. -/
theorem default_period_is_5000 :
    throttle_period_arg none = 5000 ∧
    period_in_seconds (throttle_period_arg none) = 5 := by
  constructor
  · rfl
  · norm_num [throttle_period_arg, period_in_seconds]

end Throttle
